import Mathlib

/-!
Shallow embedding of `backend/main.py`, a PDF table-extraction and
section-matching service.

The extractor (`process_pdf`) walks the words of each page, detects column
headers from a fixed label list, buckets words into rows by vertical
proximity, and filters noise rows.  The matcher (`process_pdfs`) combines
the extracted tables of two documents and counts, per requested section,
the rows whose OPR cell matches the section number via pandas
`Series.str.contains` (which interprets the number as a regular
expression).

Modelling choices:
* Page-geometry coordinates are modelled as integers (`Int`); the source
  uses floats but every comparison performed on them (subtraction,
  absolute difference, ordering) is exact.
* Python strings are modelled as `String`, with explicit character-list
  implementations of `str.strip` and `str.lower` restricted to ASCII
  whitespace and letters.
* `sorted` / `list.sort` are stable sorts, modelled by `List.insertionSort`
  (also stable, hence extensionally identical on every input).
* `re.search` (used by `Series.str.contains`) is modelled for the pattern
  fragment in which every character is literal except `.`, which matches
  any character other than a newline.  `literalPattern` characterises the
  metacharacter-free patterns on which `re.search` is plain substring
  search.
* pandas DataFrames carry only string cells here, so `dropna(how='all')`
  is the identity and is not represented.
* Fallible steps (missing dict keys, missing OPR column) are modelled with
  `Except String`, mirroring the exceptions that the outermost handler
  turns into a generic 500 response.
-/

/-- ASCII whitespace recognised by Python's `str.strip`. -/
def isPyWs (c : Char) : Bool :=
  c = ' ' || c = '\t' || c = '\n' || c = '\r' || c = '\x0b' || c = '\x0c'

/-- Strip leading and trailing whitespace from a character list. -/
def stripChars (l : List Char) : List Char :=
  ((l.dropWhile isPyWs).reverse.dropWhile isPyWs).reverse

/-- Python `str.strip()`. -/
def pyStrip (s : String) : String := ⟨stripChars s.data⟩

/-- Lower-case an ASCII letter, leave anything else unchanged
(Python `str.lower` on the ASCII fragment). -/
def lowerChar (c : Char) : Char :=
  if 'A' ≤ c ∧ c ≤ 'Z' then Char.ofNat (c.toNat + 32) else c

/-- Python `str.lower()`. -/
def pyLower (s : String) : String := ⟨s.data.map lowerChar⟩

/-- One pattern character against one subject character: `.` matches any
character except a newline, anything else matches itself
(`re` default semantics, no DOTALL). -/
def patCharMatch (p c : Char) : Bool :=
  if p = '.' then decide (c ≠ '\n') else decide (p = c)

/-- Match a pattern against a prefix of the subject. -/
def matchPat : List Char → List Char → Bool
  | [], _ => true
  | _ :: _, [] => false
  | p :: ps, c :: cs => patCharMatch p c && matchPat ps cs

/-- `re.search`: try the pattern at every start position. -/
def matchSomewhere (pat : List Char) : List Char → Bool
  | [] => matchPat pat []
  | c :: cs => matchPat pat (c :: cs) || matchSomewhere pat cs

/-- `re.search(pat, s)` succeeds (for the supported pattern fragment). -/
def reSearch (pat s : String) : Bool := matchSomewhere pat.data s.data

/-- Literal character-list comparison against a prefix of the subject. -/
def leadsList : List Char → List Char → Bool
  | [], _ => true
  | _ :: _, [] => false
  | a :: as, b :: bs => decide (a = b) && leadsList as bs

/-- Plain-substring occurrence of `needle` starting at some position. -/
def subOccurs (needle : List Char) : List Char → Bool
  | [] => leadsList needle []
  | c :: cs => leadsList needle (c :: cs) || subOccurs needle cs

/-- Plain (case-sensitive, unanchored) substring containment. -/
def isSubstr (needle hay : String) : Bool := subOccurs needle.data hay.data

/-- The metacharacters of Python regular expressions. -/
def isRegexMeta (c : Char) : Bool :=
  decide (c = '.') || decide (c = '^') || decide (c = '$') || decide (c = '*') ||
  decide (c = '+') || decide (c = '?') || decide (c = '\x7b') || decide (c = '\x7d') ||
  decide (c = '[') || decide (c = ']') || decide (c = '\\') || decide (c = '|') ||
  decide (c = '(') || decide (c = ')')

/-- A pattern that contains no regex metacharacter: `re.search` degenerates
to plain substring search on these. -/
def literalPattern (p : String) : Bool := p.data.all (fun c => !(isRegexMeta c))

/-- A positioned text token, as produced by `page.extract_words()`:
`text`, horizontal extent `x0 ≤ x1`, and vertical position `top`. -/
structure Word where
  text : String
  x0 : Int
  x1 : Int
  top : Int
deriving DecidableEq

/-- `TARGET_HEADERS` (main.py line 22): the 13 recognised column labels. -/
def TARGET_HEADERS : List String :=
  ["S.S", "POL", "POD", "OPR", "2210", "4510", "45G0", "45G1", "4310", "4363", "4532", "E", "F"]

/-- Lines 36-41: collect `(text, x0 - 5, x1 + 5)` for every word whose text
is a target header, then stable-sort by the widened left edge. -/
def headerPositions (words : List Word) : List (String × Int × Int) :=
  ((words.filter (fun w => TARGET_HEADERS.contains w.text)).map
      (fun w => (w.text, w.x0 - 5, w.x1 + 5))).insertionSort
    (fun a b => a.2.1 ≤ b.2.1)

/-- Line 51: `sorted(set(word['top'] for word in words))`. -/
def rowPositions (words : List Word) : List Int :=
  ((words.map (fun w => w.top)).dedup).insertionSort (fun a b => a ≤ b)

/-- Lines 60-63: index of the first column whose widened band
`[x0 - 5, x1 + 5]` contains the word's left edge. -/
def findColumn : List (Int × Int) → Int → Option Nat
  | [], _ => none
  | (lo, hi) :: rest, x =>
    if lo ≤ x ∧ x ≤ hi then some 0 else (findColumn rest x).map (fun i => i + 1)

/-- Lines 57-66, one iteration of the inner word loop: when the word's
`top` is within 5 units of the anchor `y` and its `x0` falls in some band,
append `f" {text}".strip()` — i.e. the stripped text, with NO separator —
to that column's cell. -/
def rowStep (cols : List (Int × Int)) (y : Int) (row : List String) (w : Word) : List String :=
  if (w.top - y).natAbs < 5 then
    match findColumn cols w.x0 with
    | some i =>
      if i < row.length then row.set i (row.getD i "" ++ pyStrip (" " ++ w.text)) else row
    | none => row
  else row

/-- Lines 55-66: build the candidate row anchored at `y`, starting from a
row of empty strings, one per column. -/
def buildRow (cols : List (Int × Int)) (words : List Word) (y : Int) : List String :=
  words.foldl (rowStep cols y) (List.replicate cols.length "")

/-- Lines 54-69: one candidate row per distinct `top`, retained when the
cell count equals the column count and some cell is non-empty. -/
def tableData (cols : List (Int × Int)) (names : List String) (words : List Word) :
    List (List String) :=
  ((rowPositions words).map (buildRow cols words)).filter
    (fun row => decide (row.length = names.length) && row.any (fun c => !(c = "")))

/-- A cell of the case-insensitive-"total" row filter (line 75):
`str.contains("total", case=False)`, a metacharacter-free regex, i.e.
lower-cased substring containment. -/
def cellHasTotal (s : String) : Bool := isSubstr "total" (pyLower s)

/-- Line 75: drop every row with "total" (case-insensitive) in some cell. -/
def totalFilter (rows : List (List String)) : List (List String) :=
  rows.filter (fun r => !(r.any cellHasTotal))

/-- Line 76: `df.astype(str).ne(column_names).any(axis=1)` — keep a row iff
some cell differs from the header label of its column position. -/
def headerDupFilter (names : List String) (rows : List (List String)) : List (List String) :=
  rows.filter (fun r => (r.zip names).any (fun p => !(p.1 = p.2)))

/-- Lines 78-79: when an OPR column was detected, keep only rows whose OPR
cell strips to a non-empty string (`df["OPR"].str.strip() != ""`; pandas
label selection takes the first column with that label). -/
def oprFilter (names : List String) (rows : List (List String)) : List (List String) :=
  if names.contains "OPR" then
    rows.filter (fun r => !(pyStrip (r.getD (names.indexOf "OPR") "") = ""))
  else rows

/-- A page-scoped extracted table: column labels and retained rows
(the DataFrame appended at line 82). -/
structure Table where
  cols : List String
  rows : List (List String)
deriving DecidableEq

/-- Line 47: `column_positions`, the widened bands in sorted order. -/
def pageColumnPositions (words : List Word) : List (Int × Int) :=
  (headerPositions words).map (fun x => (x.2.1, x.2.2))

/-- Line 48: `column_names`, the detected labels in sorted order. -/
def pageColumnNames (words : List Word) : List String :=
  (headerPositions words).map (fun x => x.1)

/-- Lines 74-79: the pandas clean-up chain applied to the candidate rows
of one page (`dropna(how='all')` is the identity on all-string rows). -/
def pageCleaned (words : List Word) : List (List String) :=
  oprFilter (pageColumnNames words)
    (headerDupFilter (pageColumnNames words)
      (totalFilter (tableData (pageColumnPositions words) (pageColumnNames words) words)))

/-- Lines 29-82: process one page (given its extracted words) into an
optional table.  `none` stands for "nothing appended for this page". -/
def processPage (words : List Word) : Option Table :=
  if words.isEmpty then none
  else if (headerPositions words).isEmpty then none
  else if (tableData (pageColumnPositions words) (pageColumnNames words) words).isEmpty then none
  else if (pageCleaned words).isEmpty then none
  else some ⟨pageColumnNames words, pageCleaned words⟩

/-- `process_pdf`: the tables of all pages, in page order.  A PDF is
modelled by the word lists of its pages. -/
def processPdf (pages : List (List Word)) : List Table :=
  pages.filterMap processPage

/-- A combined dataset (`pd.concat` of a document's tables, lines 114-115):
the union of the column labels, and one label-to-value association list per
row.  A label absent from a row's original table is a missing value (NaN). -/
structure Combined where
  cols : List String
  rows : List (List (String × String))
deriving DecidableEq

/-- Cell lookup in a combined row: `none` models NaN. -/
def getCell (row : List (String × String)) (c : String) : Option String :=
  (row.find? (fun p => decide (p.1 = c))).map (fun p => p.2)

/-- `pd.concat(tables)`: columns are unioned in order of first appearance;
each row keeps the cells of its own table's columns. -/
def combine (tables : List Table) : Combined :=
  { cols := tables.foldl (fun acc t => acc ++ t.cols.filter (fun c => !(acc.contains c))) []
    rows := (tables.map (fun t => t.rows.map (fun r => t.cols.zip r))).flatten }

/-- Line 118/119 row predicate:
`data['OPR'].str.contains(section_number, na=False)` — regex search of the
section number in the OPR cell; a missing value (NaN) never matches. -/
def oprMatches (num : String) (row : List (String × String)) : Bool :=
  match getCell row "OPR" with
  | none => false
  | some v => reSearch num v

/-- Lines 114-119 for one document: number of matching rows.  An empty
combined dataset short-circuits to 0 (`if not data.empty`); a non-empty one
without an OPR column raises `KeyError` (modelled as an error). -/
def countMatches (c : Combined) (num : String) : Except String Nat :=
  if c.rows.isEmpty then Except.ok 0
  else if c.cols.contains "OPR" then Except.ok ((c.rows.filter (oprMatches num)).length)
  else Except.error "KeyError: OPR"

/-- `data['number']` / `data['date']`: dict lookup raising `KeyError` when
the key is absent.  A JSON object is modelled as an association list. -/
def lookupKey (d : List (String × String)) (k : String) : Except String String :=
  match d.find? (fun p => decide (p.1 = k)) with
  | some p => Except.ok p.2
  | none => Except.error ("KeyError: " ++ k)

/-- Lines 109-124, one loop iteration: read `number` and `date` from the
section entry, count matches in both documents, render the result string. -/
def sectionResult (c1 c2 : Combined) (name : String) (data : List (String × String)) :
    Except String String := do
  let sectionNumber ← lookupKey data "number"
  let _sectionDate ← lookupKey data "date"
  let m1 ← countMatches c1 sectionNumber
  let m2 ← countMatches c2 sectionNumber
  pure ("Found " ++ toString m1 ++ " matches in PDF1 and " ++ toString m2 ++
    " matches in PDF2 for section " ++ name)

/-- The `for section, data in sections_data.items()` loop: first raised
exception aborts the whole request. -/
def runSections (c1 c2 : Combined) :
    List (String × List (String × String)) → Except String (List (String × String))
  | [] => Except.ok []
  | s :: rest => do
    let r ← sectionResult c1 c2 s.1 s.2
    let others ← runSections c1 c2 rest
    pure ((s.1, r) :: others)

/-- `process_pdfs` (lines 90-126): extract both documents, then run the
section loop.  (The source rebuilds the two concatenations inside the loop;
they do not depend on the loop variable, so they are hoisted here.) -/
def processPdfs (p1 p2 : List (List Word))
    (sections : List (String × List (String × String))) :
    Except String (List (String × String)) :=
  runSections (combine (processPdf p1)) (combine (processPdf p2)) sections

/-- The spec's words for the matcher row predicate (§4.2): the OPR cell
"contains the section's `number` as a substring (no anchoring,
case-sensitive, null-safe — missing values never match)". -/
def specSubstrMatch (num : String) (row : List (String × String)) : Bool :=
  match getCell row "OPR" with
  | none => false
  | some v => isSubstr num v

/-- Concatenation of a list of strings with no separator. -/
def concatAll : List String → String
  | [] => ""
  | s :: rest => s ++ concatAll rest

/-- The words of the page-anchored-at-`y` row that land in column `j`:
exactly the words whose `top` is within 5 units of `y` and whose `x0` falls
first in band `j`. -/
def cellWords (cols : List (Int × Int)) (words : List Word) (y : Int) (j : Nat) : List Word :=
  words.filter (fun w => decide ((w.top - y).natAbs < 5) && decide (findColumn cols w.x0 = some j))

/-- Example page: an `OPR` header at top 0 (band `[5, 35]`) and two words
`AB`, `CD` on the same line inside that band. -/
def exPairWords : List Word :=
  [⟨"OPR", 10, 30, 0⟩, ⟨"AB", 10, 20, 50⟩, ⟨"CD", 22, 28, 50⟩]

/-- Example page: an `OPR` header at top 0 and two words `A1`, `B2` whose
tops (50 and 53) are within 5 units of each other, so each of the two row
anchors collects both words. -/
def exCloseWords : List Word :=
  [⟨"OPR", 10, 30, 0⟩, ⟨"A1", 10, 20, 50⟩, ⟨"B2", 12, 22, 53⟩]


/-! ## Basic lemmas about the embedded operations -/

/-- Stripping `" " ++ t` equals stripping `t`: the space added by the
f-string is removed again, so cell concatenation has no separator. -/
theorem pyStrip_space (t : String) : pyStrip (" " ++ t) = pyStrip t := by
  have hd : (" " ++ t).data = ' ' :: t.data := by
    rw [String.data_append]; rfl
  unfold pyStrip stripChars
  rw [hd, List.dropWhile_cons_of_pos (by decide)]

/-- `findColumn` only returns indices of actual columns. -/
theorem findColumn_lt {cols : List (Int × Int)} {x : Int} {i : Nat}
    (h : findColumn cols x = some i) : i < cols.length := by
  induction cols generalizing i with
  | nil => simp [findColumn] at h
  | cons c rest ih =>
    obtain ⟨lo, hi⟩ := c
    simp only [findColumn] at h
    split at h
    · cases h; simp
    · obtain ⟨j, hj, rfl⟩ := Option.map_eq_some.mp h
      have := ih hj
      simp; omega

/-- The row-building step never changes the number of cells. -/
theorem rowStep_length (cols : List (Int × Int)) (y : Int) (row : List String) (w : Word) :
    (rowStep cols y row w).length = row.length := by
  unfold rowStep
  split
  · split
    · split
      · rw [List.length_set]
      · rfl
    · rfl
  · rfl

/-- A candidate row always has exactly one cell per detected column. -/
theorem buildRow_length (cols : List (Int × Int)) (words : List Word) (y : Int) :
    (buildRow cols words y).length = cols.length := by
  unfold buildRow
  have : ∀ (ws : List Word) (row : List String),
      (ws.foldl (rowStep cols y) row).length = row.length := by
    intro ws
    induction ws with
    | nil => intro row; rfl
    | cons w ws ih => intro row; rw [List.foldl_cons, ih, rowStep_length]
  rw [this, List.length_replicate]

/-- Cell contents, fully characterised: the cell of column `j` in the row
anchored at `y` is the separator-free concatenation of the stripped texts
of the words collected for that cell, in page order. -/
theorem foldl_rowStep_getD (cols : List (Int × Int)) (y : Int) (j : Nat)
    (hj : j < cols.length) :
    ∀ (ws : List Word) (row : List String), row.length = cols.length →
      (ws.foldl (rowStep cols y) row).getD j "" =
        row.getD j "" ++
          concatAll ((cellWords cols ws y j).map (fun w => pyStrip (" " ++ w.text))) := by
  intro ws
  induction ws with
  | nil =>
    intro row _
    simp [cellWords, concatAll]
  | cons w ws ih =>
    intro row hlen
    rw [List.foldl_cons]
    by_cases htop : (w.top - y).natAbs < 5
    · cases hfc : findColumn cols w.x0 with
      | none =>
        have hstep : rowStep cols y row w = row := by
          simp [rowStep, htop, hfc]
        rw [hstep, ih row hlen]
        have hcw : cellWords cols (w :: ws) y j = cellWords cols ws y j := by
          simp [cellWords, List.filter_cons, hfc]
        rw [hcw]
      | some i =>
        have hi : i < cols.length := findColumn_lt hfc
        have hi' : i < row.length := by rw [hlen]; exact hi
        have hstep : rowStep cols y row w =
            row.set i (row.getD i "" ++ pyStrip (" " ++ w.text)) := by
          simp [rowStep, htop, hfc, hi']
        rw [hstep, ih _ (by rw [List.length_set]; exact hlen)]
        by_cases hij : i = j
        · subst hij
          have h1 : (row.set i (row.getD i "" ++ pyStrip (" " ++ w.text))).getD i "" =
              row.getD i "" ++ pyStrip (" " ++ w.text) := by
            rw [List.getD_eq_getElem?_getD, List.getElem?_set_self hi', Option.getD_some]
          have h2 : cellWords cols (w :: ws) y i = w :: cellWords cols ws y i := by
            simp [cellWords, List.filter_cons, htop, hfc]
          rw [h1, h2, List.map_cons]
          show _ = _ ++ (pyStrip (" " ++ w.text) ++ _)
          rw [← String.append_assoc]
        · have h1 : (row.set i (row.getD i "" ++ pyStrip (" " ++ w.text))).getD j "" =
              row.getD j "" := by
            rw [List.getD_eq_getElem?_getD, List.getElem?_set_ne hij,
              ← List.getD_eq_getElem?_getD]
          have h2 : cellWords cols (w :: ws) y j = cellWords cols ws y j := by
            simp [cellWords, List.filter_cons, htop, hfc, hij]
          rw [h1, h2]
    · have hstep : rowStep cols y row w = row := by
        simp [rowStep, htop]
      rw [hstep, ih row hlen]
      have hcw : cellWords cols (w :: ws) y j = cellWords cols ws y j := by
        simp [cellWords, List.filter_cons, htop]
      rw [hcw]

/-- `buildRow` cell contents, from the initial all-empty row. -/
theorem buildRow_getD (cols : List (Int × Int)) (words : List Word) (y : Int) (j : Nat)
    (hj : j < cols.length) :
    (buildRow cols words y).getD j "" =
      concatAll ((cellWords cols words y j).map (fun w => pyStrip (" " ++ w.text))) := by
  unfold buildRow
  rw [foldl_rowStep_getD cols y j hj words _ (List.length_replicate _ _)]
  have : (List.replicate cols.length "").getD j "" = "" := by
    rw [List.getD_eq_getElem?_getD, List.getElem?_replicate]
    split <;> rfl
  rw [this, String.empty_append]

/-- On metacharacter-free patterns, anchored regex matching is literal
comparison. -/
theorem matchPat_eq_leadsList {ps : List Char} (h : ∀ c ∈ ps, isRegexMeta c = false) :
    ∀ cs, matchPat ps cs = leadsList ps cs := by
  induction ps with
  | nil => intro cs; cases cs <;> rfl
  | cons p ps ih =>
    intro cs
    cases cs with
    | nil => rfl
    | cons c cs =>
      have hp : isRegexMeta p = false := h p (List.mem_cons_self _ _)
      have hpd : ¬ (p = '.') := by
        intro hq
        rw [hq] at hp
        simp [isRegexMeta] at hp
      rw [matchPat, leadsList, patCharMatch, if_neg hpd,
        ih (fun c hc => h c (List.mem_cons_of_mem _ hc)) cs]

/-- On metacharacter-free patterns, regex search is substring occurrence. -/
theorem matchSomewhere_eq_subOccurs {ps : List Char} (h : ∀ c ∈ ps, isRegexMeta c = false) :
    ∀ cs, matchSomewhere ps cs = subOccurs ps cs := by
  intro cs
  induction cs with
  | nil => rw [matchSomewhere, subOccurs, matchPat_eq_leadsList h]
  | cons c cs ih =>
    rw [matchSomewhere, subOccurs, matchPat_eq_leadsList h, ih]

/-- `re.search` with a metacharacter-free pattern is exactly plain
(case-sensitive, unanchored) substring containment. -/
theorem reSearch_literal {p : String} (h : literalPattern p = true) (s : String) :
    reSearch p s = isSubstr p s := by
  unfold reSearch isSubstr
  apply matchSomewhere_eq_subOccurs
  intro c hc
  have := List.all_eq_true.mp h c hc
  simpa using this

/-- Zipping a list with itself yields only equal pairs. -/
theorem zip_self_eq {α : Type} (l : List α) : l.zip l = l.map (fun a => (a, a)) := by
  induction l with
  | nil => rfl
  | cons a l ih => simp [List.zip_cons_cons, ih]

/-! ## Membership facts for the row filters -/

theorem mem_tableData {cols : List (Int × Int)} {names : List String} {words : List Word}
    {r : List String} (h : r ∈ tableData cols names words) :
    (∃ y ∈ rowPositions words, r = buildRow cols words y) ∧
      r.length = names.length ∧ r.any (fun c => !(c = "")) = true := by
  unfold tableData at h
  obtain ⟨hmem, hcond⟩ := List.mem_filter.mp h
  obtain ⟨y, hy, hr⟩ := List.mem_map.mp hmem
  refine ⟨⟨y, hy, hr.symm⟩, ?_, ?_⟩
  · exact of_decide_eq_true (Bool.and_elim_left hcond)
  · exact Bool.and_elim_right hcond

theorem mem_totalFilter {rows : List (List String)} {r : List String}
    (h : r ∈ totalFilter rows) : r ∈ rows ∧ r.any cellHasTotal = false := by
  unfold totalFilter at h
  obtain ⟨hmem, hcond⟩ := List.mem_filter.mp h
  exact ⟨hmem, by simpa using hcond⟩

theorem mem_headerDupFilter {names : List String} {rows : List (List String)} {r : List String}
    (h : r ∈ headerDupFilter names rows) :
    r ∈ rows ∧ (r.zip names).any (fun p => !(p.1 = p.2)) = true := by
  unfold headerDupFilter at h
  exact List.mem_filter.mp h

theorem mem_oprFilter {names : List String} {rows : List (List String)} {r : List String}
    (h : r ∈ oprFilter names rows) :
    r ∈ rows ∧
      (names.contains "OPR" = true → ¬ (pyStrip (r.getD (names.indexOf "OPR") "") = "")) := by
  unfold oprFilter at h
  split at h
  · obtain ⟨hmem, hcond⟩ := List.mem_filter.mp h
    exact ⟨hmem, fun _ => by simpa using hcond⟩
  · rename_i hn
    exact ⟨h, fun hc => absurd hc hn⟩

/-- Inversion for `processPage`: the shape of any produced table. -/
theorem processPage_inv {words : List Word} {t : Table} (h : processPage words = some t) :
    t.cols = pageColumnNames words ∧ t.rows = pageCleaned words := by
  unfold processPage at h
  split at h
  · exact Option.noConfusion h
  · split at h
    · exact Option.noConfusion h
    · split at h
      · exact Option.noConfusion h
      · split at h
        · exact Option.noConfusion h
        · injection h with h
          subst h
          exact ⟨rfl, rfl⟩

/-- Every table of `processPdf` comes from some page. -/
theorem mem_processPdf {pages : List (List Word)} {t : Table} (h : t ∈ processPdf pages) :
    ∃ words ∈ pages, processPage words = some t := by
  unfold processPdf at h
  obtain ⟨words, hw, hp⟩ := List.mem_filterMap.mp h
  exact ⟨words, hw, hp⟩

/-- The combined facts about any retained row of any extracted table. -/
theorem processPdf_row_facts {pages : List (List Word)} {t : Table} {r : List String}
    (ht : t ∈ processPdf pages) (hr : r ∈ t.rows) :
    r.length = t.cols.length ∧
    (∀ c ∈ r, cellHasTotal c = false) ∧
    r ≠ t.cols ∧
    ("OPR" ∈ t.cols → ¬ (pyStrip (r.getD (t.cols.indexOf "OPR") "") = "")) := by
  obtain ⟨words, _, hpage⟩ := mem_processPdf ht
  obtain ⟨hcols, hrows⟩ := processPage_inv hpage
  rw [hrows] at hr
  unfold pageCleaned at hr
  rw [← hcols] at hr
  obtain ⟨hr1, hopr⟩ := mem_oprFilter hr
  obtain ⟨hr2, hdup⟩ := mem_headerDupFilter hr1
  obtain ⟨hr3, htot⟩ := mem_totalFilter hr2
  obtain ⟨_, hlen, _⟩ := mem_tableData hr3
  refine ⟨hlen, ?_, ?_, ?_⟩
  · intro c hc
    have := List.any_eq_false.mp htot c hc
    simpa using this
  · intro hEq
    rw [hEq, zip_self_eq] at hdup
    obtain ⟨p, hp, hne⟩ := List.any_eq_true.mp hdup
    obtain ⟨a, _, rfl⟩ := List.mem_map.mp hp
    simp at hne
  · intro hOPR
    exact hopr (by simpa using hOPR)

/-! ## Claim theorems -/

/-- C1, counterexample: the matcher does NOT count a row as a match
exactly when its OPR cell contains the section number as a plain
substring.  `str.contains` interprets the number as a regular expression:
with number `"a.c"`, the OPR value `"abc"` is counted as a match although
`"a.c"` is not a plain substring of `"abc"`. -/
theorem oprMatches_not_plain_substring :
    oprMatches "a.c" [("OPR", "abc")] = true ∧
      specSubstrMatch "a.c" [("OPR", "abc")] = false ∧
      isSubstr "a.c" "abc" = false := by decide

/-- C1 (amended): a row of a combined dataset is counted as a match for
number `n` iff its OPR cell is present and `re.search` finds `n`,
interpreted as a regular expression (case-sensitive, unanchored), in it; a
missing OPR value never matches; whenever `n` is free of regex
metacharacters this coincides with plain substring containment; in
particular OPR value "SEC-10-ABC" matches number "SEC-10". -/
theorem oprMatches_regex_characterisation (num : String) (row : List (String × String)) :
    (getCell row "OPR" = none → oprMatches num row = false) ∧
    (∀ v, getCell row "OPR" = some v → oprMatches num row = reSearch num v) ∧
    (literalPattern num = true → oprMatches num row = specSubstrMatch num row) ∧
    oprMatches "SEC-10" [("OPR", "SEC-10-ABC")] = true := by
  refine ⟨?_, ?_, ?_, by decide⟩
  · intro h
    unfold oprMatches
    rw [h]
  · intro v h
    unfold oprMatches
    rw [h]
  · intro hlit
    unfold oprMatches specSubstrMatch
    cases getCell row "OPR" with
    | none => rfl
    | some v =>
      show reSearch num v = isSubstr num v
      exact reSearch_literal hlit v

theorem oprMatches_regex_characterisation_witness :
    oprMatches "SEC-10" [("OPR", "SEC-10-ABC")] = true ∧
      oprMatches "SEC-10" [("OPR", "SEC-10-ABC")] =
        specSubstrMatch "SEC-10" [("OPR", "SEC-10-ABC")] :=
  ⟨(oprMatches_regex_characterisation "SEC-10" [("OPR", "SEC-10-ABC")]).2.2.2,
   (oprMatches_regex_characterisation "SEC-10" [("OPR", "SEC-10-ABC")]).2.2.1 (by decide)⟩

/-- C2, counterexample: two words `AB` and `CD` assigned to the same cell
yield the cell value `"ABCD"`, not the space-separated `"AB CD"` the claim
asserts — `+= f" {text}".strip()` strips the added space away again. -/
theorem cell_concat_no_separator_example :
    (cellWords [((5 : Int), 35)] exPairWords 50 0).map (fun w => w.text) = ["AB", "CD"] ∧
      processPage exPairWords = some ⟨["OPR"], [["ABCD"]]⟩ ∧
      ¬ (("ABCD" : String) = "AB CD") := by decide

/-- C2 (amended): a cell to which the extractor assigns several words holds
the words' texts, each stripped of surrounding whitespace, concatenated
directly in page word order with NO separator. -/
theorem cell_value_concat_stripped_texts (cols : List (Int × Int)) (words : List Word)
    (y : Int) (j : Nat) (hj : j < cols.length) :
    (buildRow cols words y).getD j "" =
      concatAll ((cellWords cols words y j).map (fun w => pyStrip w.text)) := by
  rw [buildRow_getD cols words y j hj]
  have h : (fun w : Word => pyStrip (" " ++ w.text)) = (fun w : Word => pyStrip w.text) :=
    funext fun w => pyStrip_space w.text
  rw [h]

theorem cell_value_concat_stripped_texts_witness :
    (0 : Nat) < ([((5 : Int), 35)] : List (Int × Int)).length ∧
      (buildRow [((5 : Int), 35)] exPairWords 50).getD 0 "" =
        concatAll ((cellWords [((5 : Int), 35)] exPairWords 50 0).map (fun w => pyStrip w.text)) :=
  ⟨by decide, cell_value_concat_stripped_texts [((5 : Int), 35)] exPairWords 50 0 (by decide)⟩

/-- C3: every row retained in an extracted table has exactly as many cells
as the page has detected header labels. -/
theorem row_length_eq_header_count (pages : List (List Word)) (t : Table)
    (ht : t ∈ processPdf pages) (r : List String) (hr : r ∈ t.rows) :
    r.length = t.cols.length :=
  (processPdf_row_facts ht hr).1

theorem row_length_eq_header_count_witness :
    (⟨["OPR"], [["ABCD"]]⟩ : Table) ∈ processPdf [exPairWords] ∧
      (["ABCD"] : List String).length = (["OPR"] : List String).length :=
  ⟨by decide,
   row_length_eq_header_count [exPairWords] ⟨["OPR"], [["ABCD"]]⟩ (by decide) ["ABCD"] (by decide)⟩

/-- C5: a PDF none of whose pages contains a word spelling one of the 13
target header labels extracts to an empty table sequence. -/
theorem no_headers_no_tables (pages : List (List Word))
    (h : ∀ page ∈ pages, ∀ w ∈ page, ¬ (w.text ∈ TARGET_HEADERS)) :
    processPdf pages = [] := by
  unfold processPdf
  apply List.filterMap_eq_nil_iff.mpr
  intro words hw
  have hhp : headerPositions words = [] := by
    unfold headerPositions
    have hf : words.filter (fun w => TARGET_HEADERS.contains w.text) = [] := by
      apply List.filter_eq_nil_iff.mpr
      intro w hmem
      simpa using h words hw w hmem
    rw [hf]
    rfl
  unfold processPage
  rw [hhp]
  simp

theorem no_headers_no_tables_witness :
    (∀ page ∈ [[(⟨"hello", 0, 10, 0⟩ : Word)]], ∀ w ∈ page, ¬ (w.text ∈ TARGET_HEADERS)) ∧
      processPdf [[(⟨"hello", 0, 10, 0⟩ : Word)]] = [] :=
  ⟨by decide, no_headers_no_tables [[⟨"hello", 0, 10, 0⟩]] (by decide)⟩

/-- C6: no cell of any retained row contains the substring "total"
case-insensitively — such candidate rows are excluded. -/
theorem total_rows_excluded (pages : List (List Word)) (t : Table)
    (ht : t ∈ processPdf pages) (r : List String) (hr : r ∈ t.rows)
    (c : String) (hc : c ∈ r) : cellHasTotal c = false :=
  (processPdf_row_facts ht hr).2.1 c hc

theorem total_rows_excluded_witness :
    (⟨["OPR"], [["ABCD"]]⟩ : Table) ∈ processPdf [exPairWords] ∧
      cellHasTotal "ABCD" = false :=
  ⟨by decide,
   total_rows_excluded [exPairWords] ⟨["OPR"], [["ABCD"]]⟩ (by decide) ["ABCD"] (by decide)
     "ABCD" (by decide)⟩

/-- C7: no retained row reproduces the detected header labels cell by
cell — duplicated header rows are excluded. -/
theorem header_duplicate_rows_excluded (pages : List (List Word)) (t : Table)
    (ht : t ∈ processPdf pages) (r : List String) (hr : r ∈ t.rows) :
    r ≠ t.cols :=
  (processPdf_row_facts ht hr).2.2.1

theorem header_duplicate_rows_excluded_witness :
    (⟨["OPR"], [["ABCD"]]⟩ : Table) ∈ processPdf [exPairWords] ∧
      (["ABCD"] : List String) ≠ ["OPR"] :=
  ⟨by decide,
   header_duplicate_rows_excluded [exPairWords] ⟨["OPR"], [["ABCD"]]⟩ (by decide) ["ABCD"]
     (by decide)⟩

/-- C8: when OPR is among a page's detected columns, every retained row has
an OPR cell that is non-blank after stripping whitespace. -/
theorem blank_opr_rows_excluded (pages : List (List Word)) (t : Table)
    (ht : t ∈ processPdf pages) (r : List String) (hr : r ∈ t.rows)
    (hOPR : "OPR" ∈ t.cols) :
    ¬ (pyStrip (r.getD (t.cols.indexOf "OPR") "") = "") :=
  (processPdf_row_facts ht hr).2.2.2 hOPR

theorem blank_opr_rows_excluded_witness :
    (⟨["OPR"], [["ABCD"]]⟩ : Table) ∈ processPdf [exPairWords] ∧
      ¬ (pyStrip ((["ABCD"] : List String).getD ((["OPR"] : List String).indexOf "OPR") "") = "") :=
  ⟨by decide,
   blank_opr_rows_excluded [exPairWords] ⟨["OPR"], [["ABCD"]]⟩ (by decide) ["ABCD"] (by decide)
     (by decide)⟩

/-- C10: every distinct word `top` on a page is a row anchor; a word is
collected into the cell set of every anchor within 5 units of its `top`;
consequently vertically close text yields several overlapping retained
rows, as on the concrete page `exCloseWords`, whose two words (tops 50 and
53) both land in both retained rows. -/
theorem anchors_and_overlapping_rows :
    (∀ (words : List Word) (t : Int), t ∈ rowPositions words ↔ ∃ w ∈ words, w.top = t) ∧
    (∀ (cols : List (Int × Int)) (words : List Word) (y : Int) (j : Nat) (w : Word),
      w ∈ words → (w.top - y).natAbs < 5 → findColumn cols w.x0 = some j →
        w ∈ cellWords cols words y j) ∧
    processPage exCloseWords = some ⟨["OPR"], [["A1B2"], ["A1B2"]]⟩ ∧
    (cellWords [((5 : Int), 35)] exCloseWords 50 0).map (fun w => w.text) = ["A1", "B2"] ∧
    (cellWords [((5 : Int), 35)] exCloseWords 53 0).map (fun w => w.text) = ["A1", "B2"] := by
  refine ⟨?_, ?_, by decide, by decide, by decide⟩
  · intro words t
    unfold rowPositions
    rw [List.Perm.mem_iff (List.perm_insertionSort _ _), List.mem_dedup]
    constructor
    · intro h
      obtain ⟨w, hw, htop⟩ := List.mem_map.mp h
      exact ⟨w, hw, htop⟩
    · intro h
      obtain ⟨w, hw, htop⟩ := h
      exact List.mem_map.mpr ⟨w, hw, htop⟩
  · intro cols words y j w hw htop hfc
    unfold cellWords
    apply List.mem_filter.mpr
    exact ⟨hw, by simp [htop, hfc]⟩

theorem anchors_and_overlapping_rows_witness :
    (⟨"A1", 10, 20, 50⟩ : Word) ∈ cellWords [((5 : Int), 35)] exCloseWords 53 0 ∧
      (50 : Int) ∈ rowPositions exCloseWords :=
  ⟨anchors_and_overlapping_rows.2.1 [((5 : Int), 35)] exCloseWords 53 0 ⟨"A1", 10, 20, 50⟩
      (by decide) (by decide) (by decide),
   (anchors_and_overlapping_rows.1 exCloseWords 50).mpr ⟨⟨"A1", 10, 20, 50⟩, by decide, rfl⟩⟩

/-- An empty combined dataset yields zero matches for any number. -/
theorem countMatches_combine_nil (num : String) : countMatches (combine []) num = Except.ok 0 :=
  rfl

/-- With both combined datasets empty and both keys present, a section's
result reports zero matches in both documents. -/
theorem sectionResult_empty_data (name : String) (data : List (String × String))
    (hn : (data.find? (fun p => decide (p.1 = "number"))).isSome)
    (hd : (data.find? (fun p => decide (p.1 = "date"))).isSome) :
    sectionResult (combine []) (combine []) name data =
      Except.ok ("Found 0 matches in PDF1 and 0 matches in PDF2 for section " ++ name) := by
  obtain ⟨q1, hq1⟩ := Option.isSome_iff_exists.mp hn
  obtain ⟨q2, hq2⟩ := Option.isSome_iff_exists.mp hd
  have h1 : lookupKey data "number" = Except.ok q1.2 := by
    unfold lookupKey
    rw [hq1]
  have h2 : lookupKey data "date" = Except.ok q2.2 := by
    unfold lookupKey
    rw [hq2]
  unfold sectionResult
  rw [h1, h2]
  show Except.ok ("Found " ++ toString (0 : Nat) ++ " matches in PDF1 and " ++
    toString (0 : Nat) ++ " matches in PDF2 for section " ++ name) = _
  have hstr : ("Found " ++ toString (0 : Nat) ++ " matches in PDF1 and " ++
      toString (0 : Nat) ++ " matches in PDF2 for section " : String) =
      "Found 0 matches in PDF1 and 0 matches in PDF2 for section " := by decide
  rw [hstr]

/-- C4: when extraction yields no tables from either PDF, the request
succeeds and every well-formed section entry reports zero matches in both
documents. -/
theorem no_tables_zero_matches (p1 p2 : List (List Word))
    (sections : List (String × List (String × String)))
    (h1 : processPdf p1 = []) (h2 : processPdf p2 = [])
    (hs : ∀ s ∈ sections, (s.2.find? (fun p => decide (p.1 = "number"))).isSome ∧
      (s.2.find? (fun p => decide (p.1 = "date"))).isSome) :
    processPdfs p1 p2 sections = Except.ok (sections.map (fun s =>
      (s.1, "Found 0 matches in PDF1 and 0 matches in PDF2 for section " ++ s.1))) := by
  unfold processPdfs
  rw [h1, h2]
  clear h1 h2
  induction sections with
  | nil => rfl
  | cons s rest ih =>
    obtain ⟨hn, hd⟩ := hs s (List.mem_cons_self _ _)
    have hrest := ih (fun x hx => hs x (List.mem_cons_of_mem _ hx))
    have hsec := sectionResult_empty_data s.1 s.2 hn hd
    unfold runSections
    rw [hsec, hrest]
    rfl

theorem no_tables_zero_matches_witness :
    processPdf [([] : List Word)] = [] ∧
      processPdfs [[]] [[]] [("s1", [("number", "N"), ("date", "D")])] =
        Except.ok [("s1", "Found 0 matches in PDF1 and 0 matches in PDF2 for section s1")] := by
  refine ⟨by decide, ?_⟩
  have h := no_tables_zero_matches [[]] [[]] [("s1", [("number", "N"), ("date", "D")])]
    (by decide) (by decide) (by decide)
  exact h

/-- A section entry missing the `number` or the `date` key makes its loop
iteration raise `KeyError`. -/
theorem sectionResult_missing_key (c1 c2 : Combined) (name : String)
    (data : List (String × String))
    (h : data.find? (fun p => decide (p.1 = "date")) = none ∨
      data.find? (fun p => decide (p.1 = "number")) = none) :
    ∃ e, sectionResult c1 c2 name data = Except.error e := by
  cases hn : data.find? (fun p => decide (p.1 = "number")) with
  | none =>
    refine ⟨"KeyError: number", ?_⟩
    have hl : lookupKey data "number" = Except.error "KeyError: number" := by
      unfold lookupKey
      rw [hn]
      rfl
    unfold sectionResult
    rw [hl]
    rfl
  | some q =>
    have hdn : data.find? (fun p => decide (p.1 = "date")) = none := by
      rcases h with hd | hn'
      · exact hd
      · rw [hn] at hn'
        exact Option.noConfusion hn'
    refine ⟨"KeyError: date", ?_⟩
    have hl1 : lookupKey data "number" = Except.ok q.2 := by
      unfold lookupKey
      rw [hn]
    have hl2 : lookupKey data "date" = Except.error "KeyError: date" := by
      unfold lookupKey
      rw [hdn]
      rfl
    unfold sectionResult
    rw [hl1, hl2]
    rfl

/-- The section loop fails as a whole when any entry raises. -/
theorem runSections_error (c1 c2 : Combined) :
    ∀ sections : List (String × List (String × String)),
      (∃ s ∈ sections, s.2.find? (fun p => decide (p.1 = "date")) = none ∨
        s.2.find? (fun p => decide (p.1 = "number")) = none) →
      ∃ e, runSections c1 c2 sections = Except.error e := by
  intro sections
  induction sections with
  | nil =>
    intro h
    simp at h
  | cons s rest ih =>
    intro h
    rcases h with ⟨x, hx, hmiss⟩
    rcases List.mem_cons.mp hx with rfl | hxr
    · obtain ⟨e, he⟩ := sectionResult_missing_key c1 c2 x.1 x.2 hmiss
      refine ⟨e, ?_⟩
      unfold runSections
      rw [he]
      rfl
    · cases hres : sectionResult c1 c2 s.1 s.2 with
      | error e =>
        refine ⟨e, ?_⟩
        unfold runSections
        rw [hres]
        rfl
      | ok r =>
        obtain ⟨e, he⟩ := ih ⟨x, hxr, hmiss⟩
        refine ⟨e, ?_⟩
        unfold runSections
        rw [hres, he]
        rfl

/-- C9: a request whose section mapping contains an entry missing the
`date` key (or the `number` key) fails as a whole with a generic error —
although the date value is never used in matching: replacing it changes
nothing. -/
theorem missing_section_key_fails_request (p1 p2 : List (List Word))
    (sections : List (String × List (String × String)))
    (hbad : ∃ s ∈ sections, s.2.find? (fun p => decide (p.1 = "date")) = none ∨
      s.2.find? (fun p => decide (p.1 = "number")) = none) :
    (∃ e, processPdfs p1 p2 sections = Except.error e) ∧
    (∀ name num d1 d2 : String,
      processPdfs p1 p2 [(name, [("number", num), ("date", d1)])] =
        processPdfs p1 p2 [(name, [("number", num), ("date", d2)])]) := by
  constructor
  · unfold processPdfs
    exact runSections_error _ _ sections hbad
  · intro name num d1 d2
    rfl

theorem missing_section_key_fails_request_witness :
    (∃ e, processPdfs [] [] [("secA", [("number", "N1")])] = Except.error e) ∧
      processPdfs [] [] [("secB", [("number", "N1"), ("date", "2024-01-01")])] =
        processPdfs [] [] [("secB", [("number", "N1"), ("date", "2025-06-30")])] := by
  have h := missing_section_key_fails_request [] [] [("secA", [("number", "N1")])] (by decide)
  exact ⟨h.1, h.2 "secB" "N1" "2024-01-01" "2025-06-30"⟩
